import Mathlib

/-!
Verification of the TFRecord reading core of `tensorboard/data/server`
(`masked_crc.rs` and `tf_record.rs`), via a shallow embedding.

Bytes are modelled as `Nat` (well-formed inputs have all elements `< 256`);
machine integers are `Nat` with explicit `% 2 ^ 32` / `% 2 ^ 64` where the
Rust code relies on fixed-width arithmetic.  The byte source (`R: Read`) is
modelled as a `List Nat` that each call to `read_record` consumes from the
front; `reader.take(want).read_to_end(buf)` yields exactly
`min want reader.length` bytes, which is the list `take`/`drop` pair.  A pure
list reader never reports an I/O error, so the `Io` variant of the Rust error
enum cannot arise and is omitted from the embedding.

The Rust `as usize` cast is modelled by `% 2 ^ W` where `W` is the platform's
pointer width (64 on the platforms the server ships for, 32 on 32-bit
platforms); `read_record` takes `W` as an explicit parameter.  Release-mode
semantics is used for integer overflow: `length + 4` on `u64` wraps modulo
`2 ^ 64`, and the `usize` subtraction `data_plus_footer.len() - FOOTER_LENGTH`
together with the subsequent `split_off` is modelled as an explicit `crash`
outcome when `data_plus_footer.len() < FOOTER_LENGTH` (in release mode
`split_off` hits its `at <= len` assertion; in debug mode the arithmetic
itself panics, at `length + 4` or at the subtraction).
-/

/-! ## CRC-32C (Castagnoli), as computed by `crc::crc32::checksum_castagnoli` -/

/-- One step of the reflected CRC-32C bit loop: shift right one bit and fold in
the reversed Castagnoli polynomial `0x82F63B78` if the low bit was set. -/
def crcStepBit (crc : Nat) : Nat :=
  if crc % 2 = 1 then (crc / 2) ^^^ 0x82F63B78 else crc / 2

/-- Fold one byte into a running reflected CRC-32C state. -/
def crcStepByte (crc b : Nat) : Nat :=
  Nat.iterate crcStepBit 8 (crc ^^^ b)

/-- Reflected CRC-32C over a byte buffer: initial state `0xFFFFFFFF`, final
xor `0xFFFFFFFF`.  This is the standard Castagnoli CRC computed by the `crc`
crate; it matches the RFC 3720 test vectors (see `crc32c` facts below). -/
def checksum_castagnoli (bytes : List Nat) : Nat :=
  (bytes.foldl crcStepByte 0xFFFFFFFF) ^^^ 0xFFFFFFFF

/-! ## `masked_crc.rs` -/

/-- Rust `pub struct MaskedCrc(pub u32);` -/
@[ext]
structure MaskedCrc where
  val : Nat
deriving DecidableEq

/-- Rust `const CRC_MASK_DELTA: u32 = 0xa282ead8;` -/
def CRC_MASK_DELTA : Nat := 0xa282ead8

/-- Rust `fn mask(crc: u32) -> MaskedCrc`:
`MaskedCrc(((crc >> 15) | (crc << 17)).wrapping_add(CRC_MASK_DELTA))`,
on 32-bit arithmetic (`<< 17` truncates modulo `2 ^ 32`, the add wraps). -/
def mask (crc : Nat) : MaskedCrc :=
  ⟨(((crc >>> 15) ||| ((crc <<< 17) % 2 ^ 32)) + CRC_MASK_DELTA) % 2 ^ 32⟩

/-- Rust `MaskedCrc::compute(bytes)`: mask the Castagnoli CRC of the buffer. -/
def MaskedCrc.compute (bytes : List Nat) : MaskedCrc :=
  mask (checksum_castagnoli bytes)

/-- Modelled from the spec: the source defines only the forward masking
transform; the spec asserts that an inverse transform exists ("recovering the
raw CRC from `mask(crc)` round-trips").  `unmask` subtracts the constant
modulo `2 ^ 32` and rotates the 32-bit value left by 15 bits (right by 17),
inverting the right-rotation by 15 performed by `mask`. -/
def unmask (m : Nat) : Nat :=
  let x := (m + (2 ^ 32 - CRC_MASK_DELTA)) % 2 ^ 32
  (x % 2 ^ 17) * 2 ^ 15 + x / 2 ^ 17

/-- The spec's description of the masking transform, used to check the
source's shift-and-or expression against it: "rotate the raw checksum right
by 15 bits, then add a fixed constant `0xA282EAD8` using wraparound (modulo
2^32) arithmetic".  A right-rotation of a 32-bit value by 15 sends the low
15 bits to the top: `(crc % 2 ^ 15) * 2 ^ 17 + crc / 2 ^ 15`. -/
def maskRotateSpec (crc : Nat) : Nat :=
  ((crc % 2 ^ 15) * 2 ^ 17 + crc / 2 ^ 15 + CRC_MASK_DELTA) % 2 ^ 32

/-! ## `tf_record.rs`: data model -/

/-- Rust `const LENGTH_CRC_OFFSET: usize = 8;` -/
def LENGTH_CRC_OFFSET : Nat := 8
/-- Rust `const DATA_OFFSET: usize = LENGTH_CRC_OFFSET + 4;` -/
def DATA_OFFSET : Nat := LENGTH_CRC_OFFSET + 4
/-- Rust `const HEADER_LENGTH: usize = DATA_OFFSET;` -/
def HEADER_LENGTH : Nat := DATA_OFFSET
/-- Rust `const FOOTER_LENGTH: usize = 4;` -/
def FOOTER_LENGTH : Nat := 4

/-- Rust `pub struct TfRecord { pub data: Vec<u8>, data_crc: MaskedCrc }` -/
structure TfRecord where
  data : List Nat
  data_crc : MaskedCrc
deriving DecidableEq

/-- Rust `pub struct ChecksumError { got: MaskedCrc, want: MaskedCrc }` -/
structure ChecksumError where
  got : MaskedCrc
  want : MaskedCrc
deriving DecidableEq

/-- Rust `TfRecord::checksum(&self) -> Result<(), ChecksumError>`: recompute the
masked CRC of the payload and compare against the stored expected value. -/
def TfRecord.checksum (r : TfRecord) : Except ChecksumError Unit :=
  let got := MaskedCrc.compute r.data
  let want := r.data_crc
  if got = want then Except.ok () else Except.error ⟨got, want⟩

/-- Rust `pub enum ReadRecordError`, without the `Io` variant (a pure list reader
cannot raise an I/O error). -/
inductive ReadRecordError where
  | badLengthCrc (e : ChecksumError)
  | truncated
  | tooLarge (length : Nat)
deriving DecidableEq

/-- Outcome of one `read_record` call.  `crash` models a Rust panic
(arithmetic overflow in debug mode / the `split_off` bounds assertion in
release mode); `failed` carries the typed error actually returned. -/
inductive ReadResult where
  | crash
  | failed (e : ReadRecordError)
  | ok (r : TfRecord)
deriving DecidableEq

/-- Rust `pub struct TfRecordState { header: Vec<u8>, data_plus_footer: Vec<u8> }`.
The `header` vector always has capacity `HEADER_LENGTH` (enforced by
`TfRecordState::new` and preserved by `clear`), so only its contents are
modelled; `data_plus_footer` has a varying capacity, modelled explicitly. -/
structure TfRecordState where
  header : List Nat
  dataPlusFooter : List Nat
  dataPlusFooterCap : Nat
deriving DecidableEq

/-- Rust `TfRecordState::new()`: empty header (capacity 12), empty
`data_plus_footer` with no capacity. -/
def TfRecordState.new : TfRecordState :=
  { header := [], dataPlusFooter := [], dataPlusFooterCap := 0 }

/-- Rust `byteorder::LittleEndian` unsigned little-endian value of a byte list. -/
def leNum : List Nat → Nat
  | [] => 0
  | b :: bs => b + 256 * leNum bs

/-- Rust `LittleEndian::read_u32(buf)`: little-endian value of the first 4 bytes. -/
def read_u32 (bytes : List Nat) : Nat := leNum (bytes.take 4)

/-- Rust `LittleEndian::read_u64(buf)`: little-endian value of the first 8 bytes. -/
def read_u64 (bytes : List Nat) : Nat := leNum (bytes.take 8)

/-- Rust `fn read_remaining(reader, buf)`: fill `buf`'s remaining capacity `cap`
from the reader (`reader.take(want).read_to_end(buf)` obtains exactly
`min want reader.length` bytes).  Returns the new buffer contents, the
remaining reader, and whether the buffer is still short of its capacity
(the `Truncated` condition `buf.len() < buf.capacity()`). -/
def read_remaining (reader buf : List Nat) (cap : Nat) :
    List Nat × List Nat × Bool :=
  let want := cap - buf.length
  let buf' := buf ++ reader.take want
  (buf', reader.drop want, decide (buf'.length < cap))

/-- The tail of `read_record` past the header phase: fill
`data_plus_footer` to its capacity, then split off the trailing 4-byte CRC
and emit the record, resetting the state to `TfRecordState.new` (that is
what `split_off` + `mem::take` + `header.clear()` leave behind).  When
`data_plus_footer` holds fewer than `FOOTER_LENGTH` bytes at completion
(only possible after the `length + 4` overflow slip in the header phase),
`data_plus_footer.len() - FOOTER_LENGTH` underflows `usize` and the code
panics, modelled as `crash`. -/
def finish_record (st : TfRecordState) (reader : List Nat) :
    ReadResult × TfRecordState × List Nat :=
  let step :=
    if st.dataPlusFooter.length < st.dataPlusFooterCap then
      read_remaining reader st.dataPlusFooter st.dataPlusFooterCap
    else
      (st.dataPlusFooter, reader, false)
  match step with
  | (dpf, reader', trunc) =>
    if trunc then
      (ReadResult.failed ReadRecordError.truncated,
        { st with dataPlusFooter := dpf }, reader')
    else if dpf.length < FOOTER_LENGTH then
      (ReadResult.crash, { st with dataPlusFooter := dpf }, reader')
    else
      let data_length := dpf.length - FOOTER_LENGTH
      let data := dpf.take data_length
      let data_crc_buf := dpf.drop data_length
      (ReadResult.ok { data := data, data_crc := ⟨read_u32 data_crc_buf⟩ },
        TfRecordState.new, reader')

/-- Rust `TfRecordState::read_record(&mut self, reader)`, with the reader's
remaining bytes and the updated state returned explicitly.  `W` is the
platform's pointer width in bits: `length as usize` is `% 2 ^ W`, and the
`u64` sum `length + FOOTER_LENGTH` wraps modulo `2 ^ 64` (release mode;
debug mode panics right there for `length ≥ 2 ^ 64 - 4`, see `finish_record`
for where the release build panics instead). -/
def read_record (W : Nat) (st : TfRecordState) (reader : List Nat) :
    ReadResult × TfRecordState × List Nat :=
  if st.header.length < HEADER_LENGTH then
    match read_remaining reader st.header HEADER_LENGTH with
    | (header', reader', trunc) =>
      if trunc then
        (ReadResult.failed ReadRecordError.truncated,
          { st with header := header' }, reader')
      else
        let length_buf := header'.take LENGTH_CRC_OFFSET
        let length_crc : MaskedCrc := ⟨read_u32 (header'.drop LENGTH_CRC_OFFSET)⟩
        let actual_crc := MaskedCrc.compute length_buf
        if length_crc ≠ actual_crc then
          (ReadResult.failed (ReadRecordError.badLengthCrc
              { got := actual_crc, want := length_crc }),
            { st with header := header' }, reader')
        else
          let length := read_u64 length_buf
          let data_plus_footer_length_u64 := (length + FOOTER_LENGTH) % 2 ^ 64
          let data_plus_footer_length := data_plus_footer_length_u64 % 2 ^ W
          if data_plus_footer_length ≠ data_plus_footer_length_u64 then
            (ReadResult.failed (ReadRecordError.tooLarge length),
              { st with header := header' }, reader')
          else
            finish_record
              { header := header',
                dataPlusFooter := st.dataPlusFooter,
                dataPlusFooterCap := max st.dataPlusFooterCap
                  (st.dataPlusFooter.length + data_plus_footer_length) }
              reader'
  else
    finish_record st reader

/-- Drive `read_record` over a list of chunks, one call per chunk, threading
the same state through all calls (the caller's "read until truncated" loop
with each chunk served by a fresh cursor).  Returns the per-call results and
the final state. -/
def feedChunks (W : Nat) : TfRecordState → List (List Nat) → List ReadResult × TfRecordState
  | st, [] => ([], st)
  | st, c :: cs =>
    match read_record W st c with
    | (res, st', _) =>
      match feedChunks W st' cs with
      | (results, stFin) => (res :: results, stFin)

/-- The parse state after a well-formed record's prefix `p` has been fed:
below 12 bytes the header accumulator holds `p`; from 12 bytes on the header
is complete and `data_plus_footer` holds the rest of `p`, with capacity
reserved for the payload plus footer. -/
def midState (hdr payload p : List Nat) : TfRecordState :=
  if p.length < HEADER_LENGTH then
    { header := p, dataPlusFooter := [], dataPlusFooterCap := 0 }
  else
    { header := hdr, dataPlusFooter := p.drop HEADER_LENGTH,
      dataPlusFooterCap := payload.length + FOOTER_LENGTH }

/-! ## Known test vector inputs -/

/-- The byte sequence `\x1a\x11` ++ `"CRC test, one two"` from the
`MaskedCrc::compute` doc example. -/
def crcTestVector : List Nat :=
  [0x1a, 0x11, 0x43, 0x52, 0x43, 0x20, 0x74, 0x65, 0x73, 0x74, 0x2c, 0x20,
   0x6f, 0x6e, 0x65, 0x20, 0x74, 0x77, 0x6f]

/-- The doc-example record from `read_record`'s documentation: length 24,
valid length-CRC `0x224b7fa3`. -/
def exampleHeader : List Nat :=
  [0x18, 0x00, 0x00, 0x00, 0x00, 0x00, 0x00, 0x00, 0xa3, 0x7f, 0x4b, 0x22]

/-- The doc-example payload: `\x09\x00\x00\x80\x38\x99\xd6\xd7\x41\x1a\x0d`
followed by `brain.Event:2` (24 bytes). -/
def examplePayload : List Nat :=
  [0x09, 0x00, 0x00, 0x80, 0x38, 0x99, 0xd6, 0xd7, 0x41, 0x1a, 0x0d,
   0x62, 0x72, 0x61, 0x69, 0x6e, 0x2e, 0x45, 0x76, 0x65, 0x6e, 0x74, 0x3a, 0x32]

/-- The doc-example footer: payload CRC `0xab364b12`, little-endian. -/
def exampleFooter : List Nat := [0x12, 0x4b, 0x36, 0xab]

/-- The full doc-example record (40 bytes). -/
def exampleRecordBytes : List Nat := exampleHeader ++ examplePayload ++ exampleFooter

/-- A 12-byte header declaring length `2 ^ 64 - 1` with a correct masked CRC
over its 8 length bytes, followed by 3 bytes of data: in the code,
`length + 4` wraps to 3 on `u64`, the `usize` check passes, and the call
panics instead of returning `TooLarge`. -/
def hugeLengthInput : List Nat :=
  [0xff, 0xff, 0xff, 0xff, 0xff, 0xff, 0xff, 0xff,
   0xa6, 0x7b, 0x11, 0x3a, 0x00, 0x00, 0x00]

/-- A 12-byte header declaring length `2 ^ 64 - 4` with a correct masked CRC
over its 8 length bytes: `length + 4` wraps to 0 on `u64` and the call
panics immediately. -/
def wrapLengthInput : List Nat :=
  [0xfc, 0xff, 0xff, 0xff, 0xff, 0xff, 0xff, 0xff, 0x1f, 0x11, 0xe0, 0x3b]

/-! ## Bitwise helper lemmas -/

set_option maxRecDepth 10000

theorem two_mul_lor_two_mul (x y : Nat) : (2 * x) ||| (2 * y) = 2 * (x ||| y) := by
  have h := Nat.lor_bit false x false y
  simpa [Nat.bit] using h

theorem two_mul_lor_two_mul_add_one (x y : Nat) :
    (2 * x) ||| (2 * y + 1) = 2 * (x ||| y) + 1 := by
  have h := Nat.lor_bit false x true y
  simpa [Nat.bit] using h

/-- Bitwise `or` of numbers with disjoint binary support is addition: a
multiple of `2 ^ n` or-ed with a value below `2 ^ n`. -/
theorem mul_two_pow_lor_eq_add (n : Nat) :
    ∀ k a : Nat, a < 2 ^ n → (k * 2 ^ n) ||| a = k * 2 ^ n + a := by
  induction n with
  | zero =>
    intro k a ha
    have : a = 0 := by omega
    subst this
    simp
  | succ n ih =>
    intro k a ha
    have hpow : (2 : Nat) ^ (n + 1) = 2 ^ n * 2 := pow_succ 2 n
    have hk : k * 2 ^ (n + 1) = 2 * (k * 2 ^ n) := by rw [hpow]; ring
    rcases Nat.even_or_odd a with he | ho
    · obtain ⟨a', rfl⟩ := he
      have ha' : a' < 2 ^ n := by omega
      rw [hk, ← two_mul a', two_mul_lor_two_mul, ih k a' ha']
      ring
    · obtain ⟨a', rfl⟩ := ho
      have ha' : a' < 2 ^ n := by omega
      rw [hk, two_mul_lor_two_mul_add_one, ih k a' ha']
      ring

/-- For 32-bit inputs, the source's `(crc >> 15) | (crc << 17)` expression
followed by the wrapping add is exactly the spec's "rotate right by 15, add
the constant modulo `2 ^ 32`". -/
theorem mask_val_eq_rotate (crc : Nat) (h : crc < 2 ^ 32) :
    (mask crc).val = maskRotateSpec crc := by
  unfold mask maskRotateSpec
  have h1 : crc >>> 15 = crc / 2 ^ 15 := Nat.shiftRight_eq_div_pow crc 15
  have h2 : (crc <<< 17) % 2 ^ 32 = (crc % 2 ^ 15) * 2 ^ 17 := by
    rw [Nat.shiftLeft_eq]
    have : (2 : Nat) ^ 32 = 2 ^ 15 * 2 ^ 17 := by norm_num
    rw [this, Nat.mul_mod_mul_right]
  have h3 : crc / 2 ^ 15 < 2 ^ 17 := by
    have : crc < 2 ^ 15 * 2 ^ 17 := by
      calc crc < 2 ^ 32 := h
      _ = 2 ^ 15 * 2 ^ 17 := by norm_num
    exact Nat.div_lt_of_lt_mul (by omega)
  rw [h1, h2, Nat.lor_comm, mul_two_pow_lor_eq_add 17 (crc % 2 ^ 15) (crc / 2 ^ 15) h3]

/-- Applying `unmask` undoes `maskRotateSpec`. -/
theorem unmask_maskRotateSpec (crc : Nat) (h : crc < 2 ^ 32) :
    unmask (maskRotateSpec crc) = crc := by
  unfold unmask maskRotateSpec CRC_MASK_DELTA
  dsimp only
  generalize hs : (crc % 2 ^ 15) * 2 ^ 17 + crc / 2 ^ 15 = s
  have hslt : s < 2 ^ 32 := by omega
  have hx : ((s + 2726488792) % 2 ^ 32 + (2 ^ 32 - 2726488792)) % 2 ^ 32 = s := by
    omega
  rw [hx]
  have h1 : s % 2 ^ 17 = crc / 2 ^ 15 := by omega
  have h2 : s / 2 ^ 17 = crc % 2 ^ 15 := by omega
  rw [h1, h2]
  omega

/-- Applying `maskRotateSpec` undoes `unmask`. -/
theorem maskRotateSpec_unmask (m : Nat) (h : m < 2 ^ 32) :
    maskRotateSpec (unmask m) = m := by
  unfold unmask maskRotateSpec CRC_MASK_DELTA
  dsimp only
  generalize hx : (m + (2 ^ 32 - 2726488792)) % 2 ^ 32 = x
  have hxlt : x < 2 ^ 32 := by omega
  have h1 : ((x % 2 ^ 17) * 2 ^ 15 + x / 2 ^ 17) % 2 ^ 15 = x / 2 ^ 17 := by omega
  have h2 : ((x % 2 ^ 17) * 2 ^ 15 + x / 2 ^ 17) / 2 ^ 15 = x % 2 ^ 17 := by omega
  rw [h1, h2]
  omega

/-- Values of `unmask` land in the 32-bit space. -/
theorem unmask_lt (m : Nat) : unmask m < 2 ^ 32 := by
  unfold unmask CRC_MASK_DELTA
  dsimp only
  omega

/-- One CRC bit step stays below `2 ^ 32`. -/
theorem crcStepBit_lt (crc : Nat) (h : crc < 2 ^ 32) : crcStepBit crc < 2 ^ 32 := by
  unfold crcStepBit
  split
  · exact Nat.xor_lt_two_pow (by omega) (by norm_num)
  · omega

/-- Iterating the CRC bit step stays below `2 ^ 32`. -/
theorem crcIterate_lt (n : Nat) :
    ∀ crc : Nat, crc < 2 ^ 32 → Nat.iterate crcStepBit n crc < 2 ^ 32 := by
  induction n with
  | zero => intro crc h; exact h
  | succ n ih =>
    intro crc h
    exact ih (crcStepBit crc) (crcStepBit_lt crc h)

/-- One CRC byte step stays below `2 ^ 32` for byte values. -/
theorem crcStepByte_lt (crc b : Nat) (hc : crc < 2 ^ 32) (hb : b < 256) :
    crcStepByte crc b < 2 ^ 32 := by
  unfold crcStepByte
  exact crcIterate_lt 8 (crc ^^^ b) (Nat.xor_lt_two_pow hc (by omega))

/-- The Castagnoli CRC of a byte buffer is a 32-bit value. -/
theorem checksum_castagnoli_lt (bytes : List Nat) (h : ∀ b ∈ bytes, b < 256) :
    checksum_castagnoli bytes < 2 ^ 32 := by
  unfold checksum_castagnoli
  have hfold : ∀ (l : List Nat) (init : Nat), (∀ b ∈ l, b < 256) → init < 2 ^ 32 →
      l.foldl crcStepByte init < 2 ^ 32 := by
    intro l
    induction l with
    | nil => intro init _ hinit; exact hinit
    | cons b bs ih =>
      intro init hl hinit
      exact ih (crcStepByte init b)
        (fun x hx => hl x (List.mem_cons_of_mem b hx))
        (crcStepByte_lt init b hinit (hl b (List.mem_cons_self b bs)))
  exact Nat.xor_lt_two_pow (hfold bytes 0xFFFFFFFF h (by norm_num)) (by norm_num)

/-- The fresh state is at a record boundary. -/
theorem midState_nil (hdr payload : List Nat) :
    midState hdr payload [] = TfRecordState.new := rfl



/-! ## Record machine lemmas -/

/-- Fill that exactly completes the buffer: the reader starts with the missing
bytes `c` and the buffer reaches its capacity. -/
theorem read_remaining_fill (buf c rest : List Nat) (cap : Nat)
    (hlen : (buf ++ c).length = cap) :
    read_remaining (c ++ rest) buf cap = (buf ++ c, rest, false) := by
  unfold read_remaining
  dsimp only
  have hbuf : buf.length ≤ cap := by
    simp only [List.length_append] at hlen
    omega
  have hw : cap - buf.length = c.length := by
    simp only [List.length_append] at hlen
    omega
  rw [hw, List.take_left, List.drop_left]
  simp [hlen]

/-- Fill that comes up short: the whole reader is consumed and the buffer is
still below capacity. -/
theorem read_remaining_short (buf reader : List Nat) (cap : Nat)
    (hlen : (buf ++ reader).length < cap) :
    read_remaining reader buf cap = (buf ++ reader, [], true) := by
  unfold read_remaining
  dsimp only
  have h1 : reader.length ≤ cap - buf.length := by
    simp only [List.length_append] at hlen
    omega
  rw [List.take_of_length_le h1, List.drop_eq_nil_of_le h1]
  simp only [List.length_append] at hlen
  simp [hlen]

/-- Running `finish_record` with too few bytes: consumes the whole reader and reports
truncation, keeping the accumulated bytes. -/
theorem finish_record_trunc (hdr q reader : List Nat) (cap : Nat)
    (h : (q ++ reader).length < cap) :
    finish_record ⟨hdr, q, cap⟩ reader
      = (ReadResult.failed ReadRecordError.truncated, ⟨hdr, q ++ reader, cap⟩, []) := by
  unfold finish_record
  have hq : q.length < cap := by
    simp only [List.length_append] at h
    omega
  dsimp only
  rw [if_pos hq, read_remaining_short q reader cap h]
  simp

/-- Running `finish_record` when the reader starts with exactly the missing bytes:
emits the parsed record and resets the state. -/
theorem finish_record_done (hdr q missing rest : List Nat) (cap : Nat)
    (hfill : (q ++ missing).length = cap) (hge : FOOTER_LENGTH ≤ cap) :
    finish_record ⟨hdr, q, cap⟩ (missing ++ rest)
      = (ReadResult.ok ⟨(q ++ missing).take (cap - FOOTER_LENGTH),
            ⟨read_u32 ((q ++ missing).drop (cap - FOOTER_LENGTH))⟩⟩,
          TfRecordState.new, rest) := by
  unfold finish_record
  dsimp only
  by_cases hq : q.length < cap
  · rw [if_pos hq, read_remaining_fill q missing rest cap hfill]
    have hnotlt : ¬ (q ++ missing).length < FOOTER_LENGTH := by
      simp only [FOOTER_LENGTH] at hge ⊢
      omega
    simp only [Bool.false_eq_true, if_false, hfill, if_neg hnotlt]
    rw [if_neg (Nat.not_lt.mpr hge)]
  · have hqe : q.length = cap := by
      simp only [List.length_append] at hfill
      omega
    have hm : missing = [] := by
      have : missing.length = 0 := by
        simp only [List.length_append] at hfill
        omega
      exact List.eq_nil_of_length_eq_zero this
    subst hm
    rw [if_neg hq]
    have hnotlt : ¬ (q ++ ([] : List Nat)).length < FOOTER_LENGTH := by
      simp only [List.append_nil, FOOTER_LENGTH]
      simp only [FOOTER_LENGTH] at hge
      omega
    simp only [List.append_nil] at hnotlt ⊢
    simp only [Bool.false_eq_true, if_false, if_neg hnotlt, hqe, List.nil_append]
    rw [if_neg (Nat.not_lt.mpr hge)]

/-- Header phase on a state still missing header bytes, where the reader
starts with exactly the missing header bytes `c1` of a valid header: the
header completes and validates within the call, capacity is reserved, and
the call proceeds to the payload phase on the remaining input. -/
theorem read_record_header_accept (W : Nat) (hdr payload p c1 rem : List Nat)
    (hh : hdr.length = HEADER_LENGTH)
    (hcrc : (⟨read_u32 (hdr.drop LENGTH_CRC_OFFSET)⟩ : MaskedCrc)
              = MaskedCrc.compute (hdr.take LENGTH_CRC_OFFSET))
    (hlen : read_u64 (hdr.take LENGTH_CRC_OFFSET) = payload.length)
    (hW : payload.length + FOOTER_LENGTH < 2 ^ W)
    (h64 : payload.length + FOOTER_LENGTH < 2 ^ 64)
    (hp : p.length < HEADER_LENGTH)
    (hpc : p ++ c1 = hdr) :
    read_record W (midState hdr payload p) (c1 ++ rem)
      = finish_record ⟨hdr, [], payload.length + FOOTER_LENGTH⟩ rem := by
  have hmid : midState hdr payload p
      = { header := p, dataPlusFooter := [], dataPlusFooterCap := 0 } := by
    unfold midState
    rw [if_pos hp]
  rw [hmid]
  unfold read_record
  dsimp only
  rw [if_pos hp]
  have hfill : (p ++ c1).length = HEADER_LENGTH := by rw [hpc]; exact hh
  rw [read_remaining_fill p c1 rem HEADER_LENGTH hfill]
  dsimp only
  rw [hpc]
  simp only [Bool.false_eq_true, if_false]
  rw [if_neg (fun hne => hne hcrc)]
  rw [hlen, Nat.mod_eq_of_lt h64, Nat.mod_eq_of_lt hW]
  rw [if_neg (fun hne => hne rfl)]
  norm_num

/-- Feeding a chunk `c` that still leaves part `t` of a well-formed record
outstanding: the call reports `Truncated`, consumes the whole chunk, and
moves the state forward to the position after `p ++ c`. -/
theorem read_record_mid_truncated (W : Nat) (hdr payload footer p c t : List Nat)
    (hh : hdr.length = HEADER_LENGTH)
    (hcrc : (⟨read_u32 (hdr.drop LENGTH_CRC_OFFSET)⟩ : MaskedCrc)
              = MaskedCrc.compute (hdr.take LENGTH_CRC_OFFSET))
    (hlen : read_u64 (hdr.take LENGTH_CRC_OFFSET) = payload.length)
    (hf : footer.length = FOOTER_LENGTH)
    (hW : payload.length + FOOTER_LENGTH < 2 ^ W)
    (h64 : payload.length + FOOTER_LENGTH < 2 ^ 64)
    (hsplit : p ++ c ++ t = hdr ++ payload ++ footer)
    (ht : t ≠ []) :
    read_record W (midState hdr payload p) c
      = (ReadResult.failed ReadRecordError.truncated,
          midState hdr payload (p ++ c), []) := by
  have hH : HEADER_LENGTH = 12 := rfl
  have hF : FOOTER_LENGTH = 4 := rfl
  have hlens : p.length + c.length + t.length
      = 12 + payload.length + 4 := by
    have := congrArg List.length hsplit
    simp only [List.length_append] at this
    omega
  have htpos : 0 < t.length := List.length_pos.mpr ht
  by_cases hpc12 : p.length + c.length < 12
  · -- still inside the header
    have hp : p.length < HEADER_LENGTH := by omega
    have hmid : midState hdr payload p
        = { header := p, dataPlusFooter := [], dataPlusFooterCap := 0 } := by
      unfold midState
      rw [if_pos hp]
    have hmid' : midState hdr payload (p ++ c)
        = { header := p ++ c, dataPlusFooter := [], dataPlusFooterCap := 0 } := by
      unfold midState
      rw [if_pos (by simp only [List.length_append]; omega)]
    rw [hmid, hmid']
    unfold read_record
    dsimp only
    rw [if_pos hp]
    rw [read_remaining_short p c HEADER_LENGTH
      (by simp only [List.length_append]; omega)]
    simp
  · by_cases hp : p.length < HEADER_LENGTH
    · -- the chunk completes the header and part of the payload
      have hw : HEADER_LENGTH - p.length ≤ c.length := by omega
      have hphdr : p ++ c.take (HEADER_LENGTH - p.length) = hdr := by
        have h1 : (p ++ c).take HEADER_LENGTH
            = p.take HEADER_LENGTH ++ c.take (HEADER_LENGTH - p.length) :=
          List.take_append_eq_append_take
        have h2 : p.take HEADER_LENGTH = p := List.take_of_length_le (by omega)
        have h3 : ((p ++ c) ++ t).take HEADER_LENGTH = (p ++ c).take HEADER_LENGTH :=
          List.take_append_of_le_length (by simp only [List.length_append]; omega)
        have hassoc : (p ++ c) ++ t = hdr ++ (payload ++ footer) := by
          rw [← List.append_assoc]
          exact hsplit
        have h4 : ((p ++ c) ++ t).take HEADER_LENGTH = hdr := by
          rw [hassoc, ← hh]
          exact List.take_left hdr (payload ++ footer)
        calc p ++ c.take (HEADER_LENGTH - p.length)
            = p.take HEADER_LENGTH ++ c.take (HEADER_LENGTH - p.length) := by rw [h2]
          _ = (p ++ c).take HEADER_LENGTH := h1.symm
          _ = ((p ++ c) ++ t).take HEADER_LENGTH := h3.symm
          _ = hdr := h4
      conv_lhs => rw [← List.take_append_drop (HEADER_LENGTH - p.length) c]
      rw [read_record_header_accept W hdr payload p
        (c.take (HEADER_LENGTH - p.length)) (c.drop (HEADER_LENGTH - p.length))
        hh hcrc hlen hW h64 hp hphdr]
      rw [finish_record_trunc hdr [] (c.drop (HEADER_LENGTH - p.length))
        (payload.length + FOOTER_LENGTH)
        (by simp only [List.nil_append, List.length_drop]; omega)]
      have hmid' : midState hdr payload (p ++ c)
          = { header := hdr, dataPlusFooter := (p ++ c).drop HEADER_LENGTH,
              dataPlusFooterCap := payload.length + FOOTER_LENGTH } := by
        unfold midState
        rw [if_neg (by simp only [List.length_append]; omega)]
      rw [hmid']
      have hdrop : (p ++ c).drop HEADER_LENGTH
          = [] ++ c.drop (HEADER_LENGTH - p.length) := by
        rw [List.drop_append_eq_append_drop, List.drop_eq_nil_of_le (by omega)]
      rw [hdrop]
    · -- the header was already complete
      have hmid : midState hdr payload p
          = { header := hdr, dataPlusFooter := p.drop HEADER_LENGTH,
              dataPlusFooterCap := payload.length + FOOTER_LENGTH } := by
        unfold midState
        rw [if_neg hp]
      have hmid' : midState hdr payload (p ++ c)
          = { header := hdr, dataPlusFooter := (p ++ c).drop HEADER_LENGTH,
              dataPlusFooterCap := payload.length + FOOTER_LENGTH } := by
        unfold midState
        rw [if_neg (by simp only [List.length_append]; omega)]
      rw [hmid, hmid']
      unfold read_record
      dsimp only
      rw [if_neg (by rw [hh]; omega)]
      rw [finish_record_trunc hdr (p.drop HEADER_LENGTH) c
        (payload.length + FOOTER_LENGTH)
        (by simp only [List.length_append, List.length_drop]; omega)]
      have hdrop : (p ++ c).drop HEADER_LENGTH = p.drop HEADER_LENGTH ++ c := by
        rw [List.drop_append_eq_append_drop]
        have : HEADER_LENGTH - p.length = 0 := by omega
        rw [this, List.drop_zero]
      rw [hdrop]

/-- Feeding the chunk that completes a well-formed record: the call returns
the parsed record (payload plus stored payload-CRC), resets the state, and
leaves any extra input unconsumed. -/
theorem read_record_mid_complete (W : Nat) (hdr payload footer p c rest : List Nat)
    (hh : hdr.length = HEADER_LENGTH)
    (hcrc : (⟨read_u32 (hdr.drop LENGTH_CRC_OFFSET)⟩ : MaskedCrc)
              = MaskedCrc.compute (hdr.take LENGTH_CRC_OFFSET))
    (hlen : read_u64 (hdr.take LENGTH_CRC_OFFSET) = payload.length)
    (hf : footer.length = FOOTER_LENGTH)
    (hW : payload.length + FOOTER_LENGTH < 2 ^ W)
    (h64 : payload.length + FOOTER_LENGTH < 2 ^ 64)
    (hsplit : p ++ c = hdr ++ payload ++ footer) :
    read_record W (midState hdr payload p) (c ++ rest)
      = (ReadResult.ok ⟨payload, ⟨read_u32 footer⟩⟩, TfRecordState.new, rest) := by
  have hH : HEADER_LENGTH = 12 := rfl
  have hF : FOOTER_LENGTH = 4 := rfl
  have hlens : p.length + c.length = 12 + payload.length + 4 := by
    have := congrArg List.length hsplit
    simp only [List.length_append] at this
    omega
  have hdropfull : (p ++ c).drop HEADER_LENGTH = payload ++ footer := by
    have hassoc : p ++ c = hdr ++ (payload ++ footer) := by
      rw [← List.append_assoc]
      exact hsplit
    rw [hassoc, ← hh]
    exact List.drop_left hdr (payload ++ footer)
  have hpf : payload ++ footer
      = (payload ++ footer).take payload.length ++ (payload ++ footer).drop payload.length := by
    rw [List.take_append_drop]
  have htakepf : (payload ++ footer).take payload.length = payload :=
    List.take_left payload footer
  have hdroppf : (payload ++ footer).drop payload.length = footer :=
    List.drop_left payload footer
  by_cases hp : p.length < HEADER_LENGTH
  · -- part of the header is still missing
    have hw : HEADER_LENGTH - p.length ≤ c.length := by omega
    have hphdr : p ++ c.take (HEADER_LENGTH - p.length) = hdr := by
      have h1 : (p ++ c).take HEADER_LENGTH
          = p.take HEADER_LENGTH ++ c.take (HEADER_LENGTH - p.length) :=
        List.take_append_eq_append_take
      have h2 : p.take HEADER_LENGTH = p := List.take_of_length_le (by omega)
      have h4 : (p ++ c).take HEADER_LENGTH = hdr := by
        have hassoc : p ++ c = hdr ++ (payload ++ footer) := by
          rw [← List.append_assoc]
          exact hsplit
        rw [hassoc, ← hh]
        exact List.take_left hdr (payload ++ footer)
      calc p ++ c.take (HEADER_LENGTH - p.length)
          = p.take HEADER_LENGTH ++ c.take (HEADER_LENGTH - p.length) := by rw [h2]
        _ = (p ++ c).take HEADER_LENGTH := h1.symm
        _ = hdr := h4
    have hcdrop : c.drop (HEADER_LENGTH - p.length) = payload ++ footer := by
      have : (p ++ c).drop HEADER_LENGTH
          = p.drop HEADER_LENGTH ++ c.drop (HEADER_LENGTH - p.length) :=
        List.drop_append_eq_append_drop
      have h0 : List.drop HEADER_LENGTH p = [] := List.drop_eq_nil_of_le (le_of_lt hp)
      rw [h0, List.nil_append] at this
      rw [← this, hdropfull]
    conv_lhs => rw [← List.take_append_drop (HEADER_LENGTH - p.length) c,
      List.append_assoc]
    rw [read_record_header_accept W hdr payload p
      (c.take (HEADER_LENGTH - p.length)) (c.drop (HEADER_LENGTH - p.length) ++ rest)
      hh hcrc hlen hW h64 hp hphdr]
    rw [finish_record_done hdr [] (c.drop (HEADER_LENGTH - p.length)) rest
      (payload.length + FOOTER_LENGTH)
      (by simp only [List.nil_append, List.length_drop]; omega)
      (by omega)]
    rw [List.nil_append, hcdrop, Nat.add_sub_cancel, htakepf, hdroppf]
  · -- the header is already complete
    have hmid : midState hdr payload p
        = { header := hdr, dataPlusFooter := p.drop HEADER_LENGTH,
            dataPlusFooterCap := payload.length + FOOTER_LENGTH } := by
      unfold midState
      rw [if_neg hp]
    rw [hmid]
    unfold read_record
    dsimp only
    rw [if_neg (by rw [hh]; omega)]
    have hqc : p.drop HEADER_LENGTH ++ c = payload ++ footer := by
      have : (p ++ c).drop HEADER_LENGTH
          = p.drop HEADER_LENGTH ++ c.drop (HEADER_LENGTH - p.length) :=
        List.drop_append_eq_append_drop
      have hz : HEADER_LENGTH - p.length = 0 := by omega
      rw [hz, List.drop_zero] at this
      rw [← this, hdropfull]
    rw [finish_record_done hdr (p.drop HEADER_LENGTH) c rest
      (payload.length + FOOTER_LENGTH)
      (by simp only [List.length_append, List.length_drop]; omega)
      (by omega)]
    rw [hqc, Nat.add_sub_cancel, htakepf, hdroppf]

/-- Unfolding one call of `feedChunks`. -/
theorem feedChunks_cons (W : Nat) (st : TfRecordState) (c : List Nat)
    (cs : List (List Nat)) :
    (feedChunks W st (c :: cs)).1
      = (read_record W st c).1
          :: (feedChunks W (read_record W st c).2.1 cs).1 := rfl

/-- Feeding a well-formed record to `read_record` as a sequence of nonempty
chunks starting from the state at prefix `p`: every call but the last yields
`Truncated`, and the last yields the parsed record. -/
theorem feedChunks_results (W : Nat) (hdr payload footer : List Nat)
    (hh : hdr.length = HEADER_LENGTH)
    (hcrc : (⟨read_u32 (hdr.drop LENGTH_CRC_OFFSET)⟩ : MaskedCrc)
              = MaskedCrc.compute (hdr.take LENGTH_CRC_OFFSET))
    (hlen : read_u64 (hdr.take LENGTH_CRC_OFFSET) = payload.length)
    (hf : footer.length = FOOTER_LENGTH)
    (hW : payload.length + FOOTER_LENGTH < 2 ^ W)
    (h64 : payload.length + FOOTER_LENGTH < 2 ^ 64) :
    ∀ (cs : List (List Nat)) (p : List Nat),
      cs ≠ [] → (∀ x ∈ cs, x ≠ []) →
      p ++ cs.flatten = hdr ++ payload ++ footer →
      (feedChunks W (midState hdr payload p) cs).1
        = List.replicate (cs.length - 1) (ReadResult.failed ReadRecordError.truncated)
            ++ [ReadResult.ok ⟨payload, ⟨read_u32 footer⟩⟩] := by
  intro cs
  induction cs with
  | nil => intro p hne _ _; exact absurd rfl hne
  | cons c cs' ih =>
    intro p _ hall hsplit
    simp only [List.flatten_cons] at hsplit
    cases cs' with
    | nil =>
      simp only [List.flatten_nil, List.append_nil] at hsplit
      rw [feedChunks_cons]
      have hc := read_record_mid_complete W hdr payload footer p c []
        hh hcrc hlen hf hW h64 hsplit
      rw [List.append_nil] at hc
      rw [hc]
      rfl
    | cons d ds =>
      have hdne : d ≠ [] := hall d (by simp)
      have htne : (d :: ds).flatten ≠ [] := by
        simp only [List.flatten_cons]
        intro hx
        exact hdne (List.append_eq_nil.mp hx).1
      have hsplit' : p ++ c ++ (d :: ds).flatten = hdr ++ payload ++ footer := by
        rw [List.append_assoc]
        exact hsplit
      rw [feedChunks_cons]
      rw [read_record_mid_truncated W hdr payload footer p c ((d :: ds).flatten)
        hh hcrc hlen hf hW h64 hsplit' htne]
      dsimp only
      rw [ih (p ++ c) (by simp)
        (fun x hx => hall x (List.mem_cons_of_mem c hx)) hsplit']
      simp [List.replicate_succ]

/-! ## Claim theorems: checksum component -/

/-- C6: for every byte buffer, `MaskedCrc::compute` is the spec's masking
transform (rotate the raw CRC-32C right by 15 bits, then add `0xA282EAD8`
modulo `2 ^ 32`) applied to the unmasked Castagnoli CRC; and the masked
checksum of `\x1a\x11` ++ `"CRC test, one two"` is `0x5794d08a`. -/
theorem compute_is_masked_crc32c :
    (∀ bytes : List Nat, (∀ b ∈ bytes, b < 256) →
      MaskedCrc.compute bytes = ⟨maskRotateSpec (checksum_castagnoli bytes)⟩) ∧
    MaskedCrc.compute crcTestVector = ⟨0x5794d08a⟩ := by
  constructor
  · intro bytes hb
    unfold MaskedCrc.compute
    ext
    exact mask_val_eq_rotate (checksum_castagnoli bytes) (checksum_castagnoli_lt bytes hb)
  · decide

/-- C6 witness: the rotation characterization instantiated on the 8 length
bytes of the repository's doc-example record. -/
theorem compute_is_masked_crc32c_witness :
    MaskedCrc.compute [0x18, 0, 0, 0, 0, 0, 0, 0]
      = ⟨maskRotateSpec (checksum_castagnoli [0x18, 0, 0, 0, 0, 0, 0, 0])⟩ :=
  compute_is_masked_crc32c.1 [0x18, 0, 0, 0, 0, 0, 0, 0] (by decide)

/-- C9: the masking transform is a bijection on the 32-bit pre-mask CRC
space: `unmask` recovers the raw CRC from `mask`, and `mask` recovers the
masked value from `unmask`, for every 32-bit value. -/
theorem mask_bijection :
    (∀ crc : Nat, crc < 2 ^ 32 → unmask (mask crc).val = crc) ∧
    (∀ m : Nat, m < 2 ^ 32 → (mask (unmask m)).val = m) := by
  constructor
  · intro crc h
    rw [mask_val_eq_rotate crc h]
    exact unmask_maskRotateSpec crc h
  · intro m h
    rw [mask_val_eq_rotate (unmask m) (unmask_lt m)]
    exact maskRotateSpec_unmask m h

/-- C9 witness: the round trip evaluated at concrete 32-bit values. -/
theorem mask_bijection_witness :
    unmask (mask 0x12345678).val = 0x12345678 ∧
      (mask (unmask 0x89abcdef)).val = 0x89abcdef :=
  ⟨mask_bijection.1 0x12345678 (by norm_num), mask_bijection.2 0x89abcdef (by norm_num)⟩

/-! ## Claim theorems: record-framing component -/



/-- C1: for every well-formed record byte sequence split at arbitrary byte
boundaries into two or more (nonempty) chunks, feeding the chunks to
`read_record` across successive calls on the same state yields `Truncated`
for every call except the final one, and the final call's record (payload
bytes and expected checksum) is the same as the one obtained by feeding the
whole sequence in a single call. -/
theorem read_record_split_equivalence (W : Nat)
    (hdr payload footer : List Nat) (chunks : List (List Nat))
    (hh : hdr.length = HEADER_LENGTH)
    (hcrc : (⟨read_u32 (hdr.drop LENGTH_CRC_OFFSET)⟩ : MaskedCrc)
              = MaskedCrc.compute (hdr.take LENGTH_CRC_OFFSET))
    (hlen : read_u64 (hdr.take LENGTH_CRC_OFFSET) = payload.length)
    (hf : footer.length = FOOTER_LENGTH)
    (hW : payload.length + FOOTER_LENGTH < 2 ^ W)
    (h64 : payload.length + FOOTER_LENGTH < 2 ^ 64)
    (hchunks : chunks.flatten = hdr ++ payload ++ footer)
    (hne : ∀ x ∈ chunks, x ≠ [])
    (h2 : 2 ≤ chunks.length) :
    (feedChunks W TfRecordState.new chunks).1
      = List.replicate (chunks.length - 1)
            (ReadResult.failed ReadRecordError.truncated)
          ++ [ReadResult.ok ⟨payload, ⟨read_u32 footer⟩⟩]
    ∧ read_record W TfRecordState.new (hdr ++ payload ++ footer)
      = (ReadResult.ok ⟨payload, ⟨read_u32 footer⟩⟩, TfRecordState.new, []) := by
  constructor
  · have hres := feedChunks_results W hdr payload footer hh hcrc hlen hf hW h64
      chunks []
      (by intro hx; subst hx; simp at h2)
      hne (by simpa using hchunks)
    rwa [midState_nil] at hres
  · have hone := read_record_mid_complete W hdr payload footer []
      (hdr ++ payload ++ footer) [] hh hcrc hlen hf hW h64 (by simp)
    rw [List.append_nil] at hone
    rwa [midState_nil] at hone

/-- C1 witness: the doc-example record split after byte 20 (mid-payload)
into two chunks. -/
theorem read_record_split_equivalence_witness :
    (feedChunks 64 TfRecordState.new
        [exampleRecordBytes.take 20, exampleRecordBytes.drop 20]).1
      = List.replicate 1 (ReadResult.failed ReadRecordError.truncated)
          ++ [ReadResult.ok ⟨examplePayload, ⟨read_u32 exampleFooter⟩⟩]
    ∧ read_record 64 TfRecordState.new (exampleHeader ++ examplePayload ++ exampleFooter)
      = (ReadResult.ok ⟨examplePayload, ⟨read_u32 exampleFooter⟩⟩,
          TfRecordState.new, []) :=
  read_record_split_equivalence 64 exampleHeader examplePayload exampleFooter
    [exampleRecordBytes.take 20, exampleRecordBytes.drop 20]
    (by decide) (by decide) (by decide) (by decide) (by decide) (by decide)
    (by decide) (by decide) (by decide)

/-- C2 (code-bug evidence): a header with valid length-CRC declaring length
`2 ^ 64 - 1`, for which `length + 4` is representable in no integer type in
the program: instead of returning `TooLarge(length)`, the call panics
(`crash`) once the 3 wrapped-capacity bytes are available. -/
theorem read_record_huge_length_no_too_large :
    (read_record 64 TfRecordState.new hugeLengthInput).1 = ReadResult.crash := by
  decide

/-- C3 (code-bug evidence): `read_record` on a fresh state can panic rather
than return a typed error: a 12-byte input whose valid-CRC header declares
length `2 ^ 64 - 4` makes the subtraction `data_plus_footer.len() -
FOOTER_LENGTH` underflow. -/
theorem read_record_wrap_length_crash :
    (read_record 64 TfRecordState.new wrapLengthInput).1 = ReadResult.crash := by
  decide

/-- C4: a complete 12-byte header whose stored little-endian length-checksum
differs from the checksum computed over the 8 length bytes makes
`read_record` fail with `BadLengthCrc`, whose `got` field is the computed
checksum and whose `want` field is the stored value. -/
theorem read_record_bad_length_crc (W : Nat) (hdr rest : List Nat)
    (hh : hdr.length = HEADER_LENGTH)
    (hne : (⟨read_u32 (hdr.drop LENGTH_CRC_OFFSET)⟩ : MaskedCrc)
             ≠ MaskedCrc.compute (hdr.take LENGTH_CRC_OFFSET)) :
    read_record W TfRecordState.new (hdr ++ rest)
      = (ReadResult.failed (ReadRecordError.badLengthCrc
          { got := MaskedCrc.compute (hdr.take LENGTH_CRC_OFFSET),
            want := ⟨read_u32 (hdr.drop LENGTH_CRC_OFFSET)⟩ }),
         { header := hdr, dataPlusFooter := [], dataPlusFooterCap := 0 }, rest) := by
  unfold read_record TfRecordState.new
  dsimp only
  rw [if_pos (by decide)]
  rw [read_remaining_fill [] hdr rest HEADER_LENGTH (by simpa using hh)]
  dsimp only
  rw [List.nil_append]
  simp only [Bool.false_eq_true, if_false]
  rw [if_pos hne]

/-- C4 witness: the corrupted header from the repository's
`test_length_crc_mismatch` test (stored CRC `0x554b7f99`, computed
`0x224b7fa3`). -/
theorem read_record_bad_length_crc_witness :
    read_record 64 TfRecordState.new
        ([0x18, 0x00, 0x00, 0x00, 0x00, 0x00, 0x00, 0x00, 0x99, 0x7f, 0x4b, 0x55] ++ [])
      = (ReadResult.failed (ReadRecordError.badLengthCrc
          { got := MaskedCrc.compute
              (([0x18, 0x00, 0x00, 0x00, 0x00, 0x00, 0x00, 0x00, 0x99, 0x7f, 0x4b, 0x55] :
                List Nat).take LENGTH_CRC_OFFSET),
            want := ⟨read_u32
              (([0x18, 0x00, 0x00, 0x00, 0x00, 0x00, 0x00, 0x00, 0x99, 0x7f, 0x4b, 0x55] :
                List Nat).drop LENGTH_CRC_OFFSET)⟩ }),
         { header := [0x18, 0x00, 0x00, 0x00, 0x00, 0x00, 0x00, 0x00, 0x99, 0x7f, 0x4b, 0x55],
           dataPlusFooter := [], dataPlusFooterCap := 0 }, []) :=
  read_record_bad_length_crc 64
    [0x18, 0x00, 0x00, 0x00, 0x00, 0x00, 0x00, 0x00, 0x99, 0x7f, 0x4b, 0x55] []
    (by decide) (by decide)

/-- C5: on a state at a record boundary (both accumulators empty, no
reserved capacity), a byte source yielding zero bytes makes `read_record`
return exactly `Truncated`, leaving the state unchanged — never another
error and never an empty parsed record. -/
theorem read_record_empty_source (W : Nat) (st : TfRecordState)
    (hh : st.header = []) (hd : st.dataPlusFooter = [])
    (hc : st.dataPlusFooterCap = 0) :
    read_record W st [] = (ReadResult.failed ReadRecordError.truncated, st, []) := by
  obtain ⟨sh, sd, sc⟩ := st
  simp only at hh hd hc
  subst hh
  subst hd
  subst hc
  rfl

/-- C5 witness: the fresh state on an empty source. -/
theorem read_record_empty_source_witness :
    read_record 64 TfRecordState.new []
      = (ReadResult.failed ReadRecordError.truncated, TfRecordState.new, []) :=
  read_record_empty_source 64 TfRecordState.new rfl rfl rfl

/-- C7: payload-checksum validation is separate from parsing and carries
correct fields.  `read_record` succeeds on any payload of the declared
length — no condition on the payload bytes or their checksum — so payload
corruption never fails the read; `TfRecord.checksum` (a pure function, so
trivially idempotent and record-preserving in this embedding) returns `Ok`
exactly when the checksum recomputed from the owned payload bytes equals the
stored expected one, and otherwise an error with `got` the recomputed value
and `want` the stored one. -/
theorem checksum_validation_lazy (W : Nat)
    (hdr payload footer rest : List Nat) (r : TfRecord)
    (hh : hdr.length = HEADER_LENGTH)
    (hcrc : (⟨read_u32 (hdr.drop LENGTH_CRC_OFFSET)⟩ : MaskedCrc)
              = MaskedCrc.compute (hdr.take LENGTH_CRC_OFFSET))
    (hlen : read_u64 (hdr.take LENGTH_CRC_OFFSET) = payload.length)
    (hf : footer.length = FOOTER_LENGTH)
    (hW : payload.length + FOOTER_LENGTH < 2 ^ W)
    (h64 : payload.length + FOOTER_LENGTH < 2 ^ 64) :
    read_record W TfRecordState.new (hdr ++ payload ++ footer ++ rest)
      = (ReadResult.ok ⟨payload, ⟨read_u32 footer⟩⟩, TfRecordState.new, rest)
    ∧ (TfRecord.checksum r = Except.ok ()
        ↔ MaskedCrc.compute r.data = r.data_crc)
    ∧ (MaskedCrc.compute r.data ≠ r.data_crc →
        TfRecord.checksum r
          = Except.error ⟨MaskedCrc.compute r.data, r.data_crc⟩) := by
  refine ⟨?_, ?_, ?_⟩
  · have hone := read_record_mid_complete W hdr payload footer []
      (hdr ++ payload ++ footer) rest hh hcrc hlen hf hW h64 (by simp)
    rw [midState_nil] at hone
    exact hone
  · unfold TfRecord.checksum
    dsimp only
    by_cases heq : MaskedCrc.compute r.data = r.data_crc
    · rw [if_pos heq]
      simp [heq]
    · rw [if_neg heq]
      simp [heq]
  · intro hne
    unfold TfRecord.checksum
    dsimp only
    rw [if_neg hne]

/-- C7 witness: the doc-example record with one payload byte corrupted
(first byte `0x09` changed to `0x0a`): parsing still succeeds; for the
resulting record the recomputed checksum differs from the stored one, so
validation reports exactly that mismatch. -/
theorem checksum_validation_lazy_witness :
    read_record 64 TfRecordState.new
        (exampleHeader
          ++ (0x0a :: examplePayload.drop 1) ++ exampleFooter ++ [])
      = (ReadResult.ok ⟨0x0a :: examplePayload.drop 1, ⟨read_u32 exampleFooter⟩⟩,
          TfRecordState.new, [])
    ∧ (TfRecord.checksum ⟨0x0a :: examplePayload.drop 1, ⟨read_u32 exampleFooter⟩⟩
          = Except.ok ()
        ↔ MaskedCrc.compute (0x0a :: examplePayload.drop 1)
            = (⟨read_u32 exampleFooter⟩ : MaskedCrc))
    ∧ (MaskedCrc.compute (0x0a :: examplePayload.drop 1)
          ≠ (⟨read_u32 exampleFooter⟩ : MaskedCrc) →
        TfRecord.checksum ⟨0x0a :: examplePayload.drop 1, ⟨read_u32 exampleFooter⟩⟩
          = Except.error ⟨MaskedCrc.compute (0x0a :: examplePayload.drop 1),
              ⟨read_u32 exampleFooter⟩⟩) :=
  checksum_validation_lazy 64 exampleHeader (0x0a :: examplePayload.drop 1)
    exampleFooter [] ⟨0x0a :: examplePayload.drop 1, ⟨read_u32 exampleFooter⟩⟩
    (by decide) (by decide) (by decide) (by decide) (by decide) (by decide)

/-- C8: whenever `read_record` returns a parsed record, the state it leaves
behind is exactly the fresh state: empty header accumulator, empty payload
accumulator, and no reserved capacity, ready to read the next record. -/
theorem read_record_success_resets (W : Nat) (st st' : TfRecordState)
    (reader rest : List Nat) (r : TfRecord)
    (h : read_record W st reader = (ReadResult.ok r, st', rest)) :
    st' = TfRecordState.new := by
  unfold read_record finish_record at h
  dsimp only at h
  repeat' first
    | split at h
    | dsimp only at h
  all_goals injection h with h1 h2
  all_goals first
    | exact ReadResult.noConfusion h1
    | (injection h2 with h2a h2b; exact h2a.symm)

/-- C8 witness: a successful parse of the doc-example record leaves the
fresh state. -/
theorem read_record_success_resets_witness : TfRecordState.new = TfRecordState.new :=
  read_record_success_resets 64 TfRecordState.new TfRecordState.new
    exampleRecordBytes [] ⟨examplePayload, ⟨read_u32 exampleFooter⟩⟩ (by decide)

/-- C10: header-checksum validation takes priority over the size check: on a
12-byte header whose stored length-checksum mismatches the computed one,
`read_record` reports `BadLengthCrc` and never `TooLarge`, even when the
untrusted length field is so large that `length + 4` is not representable
(`(length + 4) % 2 ^ 64` does not fit the usize width `W`). -/
theorem bad_length_crc_priority (W : Nat) (hdr rest : List Nat)
    (hh : hdr.length = HEADER_LENGTH)
    (hne : (⟨read_u32 (hdr.drop LENGTH_CRC_OFFSET)⟩ : MaskedCrc)
             ≠ MaskedCrc.compute (hdr.take LENGTH_CRC_OFFSET))
    (hbig : 2 ^ W ≤ (read_u64 (hdr.take LENGTH_CRC_OFFSET) + FOOTER_LENGTH) % 2 ^ 64) :
    (read_record W TfRecordState.new (hdr ++ rest)).1
      = ReadResult.failed (ReadRecordError.badLengthCrc
          { got := MaskedCrc.compute (hdr.take LENGTH_CRC_OFFSET),
            want := ⟨read_u32 (hdr.drop LENGTH_CRC_OFFSET)⟩ })
    ∧ ∀ len : Nat,
        (read_record W TfRecordState.new (hdr ++ rest)).1
          ≠ ReadResult.failed (ReadRecordError.tooLarge len) := by
  rw [read_record_bad_length_crc W hdr rest hh hne]
  exact ⟨rfl, fun len hbad => by
    injection hbad with hb
    exact ReadRecordError.noConfusion hb⟩

/-- C10 witness: a 32-bit platform, length field `2 ^ 56 - 1` (so
`length + 4` exceeds `2 ^ 32`) and an all-zero stored checksum. -/
theorem bad_length_crc_priority_witness :
    (read_record 32 TfRecordState.new
        ([0xff, 0xff, 0xff, 0xff, 0xff, 0xff, 0xff, 0x00,
          0x00, 0x00, 0x00, 0x00] ++ [])).1
      = ReadResult.failed (ReadRecordError.badLengthCrc
          { got := MaskedCrc.compute
              (([0xff, 0xff, 0xff, 0xff, 0xff, 0xff, 0xff, 0x00,
                 0x00, 0x00, 0x00, 0x00] : List Nat).take LENGTH_CRC_OFFSET),
            want := ⟨read_u32
              (([0xff, 0xff, 0xff, 0xff, 0xff, 0xff, 0xff, 0x00,
                 0x00, 0x00, 0x00, 0x00] : List Nat).drop LENGTH_CRC_OFFSET)⟩ })
    ∧ ∀ len : Nat,
        (read_record 32 TfRecordState.new
            ([0xff, 0xff, 0xff, 0xff, 0xff, 0xff, 0xff, 0x00,
              0x00, 0x00, 0x00, 0x00] ++ [])).1
          ≠ ReadResult.failed (ReadRecordError.tooLarge len) :=
  bad_length_crc_priority 32
    [0xff, 0xff, 0xff, 0xff, 0xff, 0xff, 0xff, 0x00, 0x00, 0x00, 0x00, 0x00] []
    (by decide) (by decide) (by decide)
